import Mathlib

/-!
Verification of the field-extraction engine shared by the live-scraper
scripts (`madam_live_scraper.py`, `jewel_live_scraper.py`,
`angel_live_scraper.py`, `chatpia_scraper.py`).

The Python code is shallowly embedded: strings are Lean `String`s
manipulated through `List Char`; dictionaries with a fixed key set become
Lean structures; the per-card loops become structural recursion over the
list of extracted card summaries; the network fetch of a detail page and
the sink submission become explicit function parameters (`String → Option
Fields`, success predicates), since their transport is external to the
engine.  Regular expressions are embedded by the character scans they
denote on the inputs that occur here (`\d` covers ASCII and full-width
digits, `\w` covers ASCII alphanumerics, underscore and the Japanese
ranges listed explicitly in the character class; `.` is any character, as
the scraped texts contain no newlines).
-/

set_option autoImplicit false

namespace LiveScraper

/-! ## Text primitives -/

/-- Whitespace as stripped by Python `str.strip` (the characters that occur
in scraped text). -/
def isPySpace (c : Char) : Bool :=
  c = ' ' || c = '\t' || c = '\n' || c = '\r' || c = '　'

/-- Decimal digit as matched by Python `\d` on the scraped sites: ASCII
digits and full-width digits. -/
def isPyDigit (c : Char) : Bool :=
  c.isDigit || ('０' ≤ c && c ≤ '９')

/-- Left trim on character lists. -/
def trimLeft (l : List Char) : List Char :=
  l.dropWhile isPySpace

/-- Right trim on character lists. -/
def trimRight (l : List Char) : List Char :=
  (l.reverse.dropWhile isPySpace).reverse

/-- Python `str.strip` on character lists. -/
def pyStripList (l : List Char) : List Char :=
  trimRight (trimLeft l)

/-- Python `str.strip`. -/
def pyStrip (s : String) : String :=
  String.mk (pyStripList s.toList)

/-- Python substring test `pat in hay` on character lists. -/
def listContainsSub (hay pat : List Char) : Bool :=
  match hay with
  | [] => pat.isEmpty
  | _ :: rest => pat.isPrefixOf hay || listContainsSub rest pat

/-- Python substring test `pat in hay`. -/
def strContainsSub (hay pat : String) : Bool :=
  listContainsSub hay.toList pat.toList

/-- Embedding of `first_non_empty(*values)` (identical in all four
scripts): the first truthy, i.e. non-empty, string, else `""`. -/
def first_non_empty (values : List String) : String :=
  match values with
  | [] => ""
  | v :: rest => if v ≠ "" then v else first_non_empty rest

/-- Embedding of `extract_age_digits` (`angel_live_scraper.py`,
`chatpia_scraper.py`): `re.search(r"(\d+)", value)` returns the leftmost
maximal digit run, so the embedding drops the non-digit prefix and takes
the digit run that starts there. -/
def extract_age_digits (value : String) : String :=
  if value = "" then ""
  else String.mk ((value.toList.dropWhile (fun c => !isPyDigit c)).takeWhile isPyDigit)

/-! ## Display-name sanitization -/

/-- Character class kept by `sanitize_profile_name`: the complement of
`[^\w\sぁ-ゟ゠-ヿ一-龥々ー０-９Ａ-Ｚａ-ｚー-]`.  Python `\w` is embedded as
ASCII alphanumerics plus underscore; the Japanese letter ranges of `\w`
are covered by the class's own explicit ranges. -/
def isPermittedNameChar (c : Char) : Bool :=
  c.isAlphanum || c = '_' || isPySpace c ||
    ('ぁ' ≤ c && c ≤ 'ゟ') || ('゠' ≤ c && c ≤ 'ヿ') ||
    ('一' ≤ c && c ≤ '龥') || c = '々' || c = 'ー' ||
    ('０' ≤ c && c ≤ '９') || ('Ａ' ≤ c && c ≤ 'Ｚ') ||
    ('ａ' ≤ c && c ≤ 'ｚ') || c = '-'

/-- Embedding of `sanitize_profile_name` (`angel_live_scraper.py` line 60,
`chatpia_scraper.py` line 87): delete every non-permitted character, then
strip. -/
def sanitize_profile_name (name : String) : String :=
  if name = "" then ""
  else String.mk (pyStripList (name.toList.filter isPermittedNameChar))

/-- Opening parenthesis accepted by the angel name/age regex `[（(]`. -/
def isOpenParen (c : Char) : Bool :=
  c = '(' || c = '（'

/-- Closing parenthesis accepted by the angel name/age regex `[）)]`. -/
def isCloseParen (c : Char) : Bool :=
  c = ')' || c = '）'

/-- Test whether, right after an opening parenthesis, the rest of the
string matches `\s*(\d+)[^）)]*[）)]`: optional whitespace, a non-empty
digit run, then a closing parenthesis further right. -/
def ageParenTailMatches (rest : List Char) : Bool :=
  let r1 := rest.dropWhile isPySpace
  let digits := r1.takeWhile isPyDigit
  let r2 := r1.dropWhile isPyDigit
  !digits.isEmpty && !(r2.dropWhile (fun c => !isCloseParen c)).isEmpty

/-- Scan for the leftmost position where `[（(]\s*(\d+)[^）)]*[）)]` matches
(the behaviour of the lazy prefix `^(.*?)` in `re.match`); return the
prefix before that position, or `none` when the pattern matches
nowhere. -/
def parenAgeSplitAux (acc : List Char) : List Char → Option (List Char)
  | [] => none
  | c :: rest =>
    if isOpenParen c && ageParenTailMatches rest then some acc.reverse
    else parenAgeSplitAux (c :: acc) rest

/-- Prefix of the string before its first parenthesized age annotation,
per the regex `^(.*?)[（(]\s*(\d+)[^）)]*[）)]` of
`angel_live_scraper.py` line 206. -/
def parenAgeSplit (raw : String) : Option (List Char) :=
  parenAgeSplitAux [] raw.toList

/-- Embedding of the angel card-name pipeline
(`angel_live_scraper.py` lines 202-211): if the age-annotation regex
matches, keep the stripped prefix before it, then sanitize. -/
def angelCardName (raw : String) : String :=
  let base :=
    match parenAgeSplit raw with
    | some pre => String.mk (pyStripList pre)
    | none => raw
  sanitize_profile_name base

/-- Fuelled worker for `removeHalfParenGroups`; the fuel only needs to
dominate the list length, since every step consumes at least one
character. -/
def removeHalfParenAux : Nat → List Char → List Char
  | 0, l => l
  | _ + 1, [] => []
  | fuel + 1, c :: rest =>
    if c = '(' then
      match rest.dropWhile (fun d => d ≠ ')') with
      | [] => c :: removeHalfParenAux fuel rest
      | _ :: rest2 => removeHalfParenAux fuel rest2
    else c :: removeHalfParenAux fuel rest

/-- Remove every `\(.*?\)` group: each half-width `(` paired with the
nearest following `)` is dropped with everything between; a `(` with no
later `)` stays (`re.sub` finds no match there).  Embedding of
`chatpia_scraper.py` line 113. -/
def removeHalfParenGroups (l : List Char) : List Char :=
  removeHalfParenAux l.length l

/-- Embedding of the chatpia card-name pipeline
(`chatpia_scraper.py` lines 109-114): delete half-width parenthesized
groups, strip, then sanitize. -/
def chatpiaCardName (raw : String) : String :=
  sanitize_profile_name (String.mk (pyStripList (removeHalfParenGroups raw.toList)))

/-! ## Dash filling -/

/-- Python truthiness-of-`or` fallback `value or "-"` for strings. -/
def orDash (s : String) : String :=
  if s = "" then "-" else s

/-- One string value of `fill_missing_with_dash` / `fill_with_dash`: a
whitespace-only value becomes `"-"`, everything else is untouched. -/
def fillString (s : String) : String :=
  if pyStrip s = "" then "-" else s

/-- One value of `fill_missing_with_dash` / `fill_with_dash`: a `None` or
whitespace-only value becomes `"-"`, everything else is untouched.
`none` embeds Python `None`; `some s` a string value. -/
def fillValue (v : Option String) : Option String :=
  match v with
  | none => some "-"
  | some s => some (fillString s)

/-- Embedding of `fill_missing_with_dash` (`angel_live_scraper.py` lines
222-229) and `fill_with_dash` (`chatpia_scraper.py` lines 250-258) on a
record seen as an association list over its keys: every key's value is
rewritten by `fillValue`. -/
def fill_missing_with_dash (item : List (String × Option String)) :
    List (String × Option String) :=
  item.map (fun kv => (kv.1, fillValue kv.2))

/-! ## Detail-page field model

The `fields` dictionary built by `parse_detail_page` has the fixed key set
below in every script, so it is embedded as a structure. -/

/-- Canonical detail-page field keys (the keys of the `fields` dict). -/
inductive FieldKey where
  | age | height | cup | face_public | toy | time_slot
  | style | job | hobby | favorite_type | erogenous_zone | genre_detail
  deriving DecidableEq, Repr

/-- The `fields` dictionary of `parse_detail_page`. -/
structure Fields where
  age : String
  height : String
  cup : String
  face_public : String
  toy : String
  time_slot : String
  style : String
  job : String
  hobby : String
  favorite_type : String
  erogenous_zone : String
  genre_detail : String
  deriving DecidableEq, Repr

/-- The initial all-empty `fields` dict. -/
def emptyFields : Fields :=
  ⟨"", "", "", "", "", "", "", "", "", "", "", ""⟩

/-- Dictionary read `fields[k]`. -/
def Fields.get (fs : Fields) : FieldKey → String
  | .age => fs.age
  | .height => fs.height
  | .cup => fs.cup
  | .face_public => fs.face_public
  | .toy => fs.toy
  | .time_slot => fs.time_slot
  | .style => fs.style
  | .job => fs.job
  | .hobby => fs.hobby
  | .favorite_type => fs.favorite_type
  | .erogenous_zone => fs.erogenous_zone
  | .genre_detail => fs.genre_detail

/-- Dictionary write `fields[k] = v`. -/
def Fields.set (fs : Fields) (k : FieldKey) (v : String) : Fields :=
  match k with
  | .age => { fs with age := v }
  | .height => { fs with height := v }
  | .cup => { fs with cup := v }
  | .face_public => { fs with face_public := v }
  | .toy => { fs with toy := v }
  | .time_slot => { fs with time_slot := v }
  | .style => { fs with style := v }
  | .job => { fs with job := v }
  | .hobby => { fs with hobby := v }
  | .favorite_type => { fs with favorite_type := v }
  | .erogenous_zone => { fs with erogenous_zone := v }
  | .genre_detail => { fs with genre_detail := v }

/-- The madam `label_map` dict in its insertion (= iteration) order,
`madam_live_scraper.py` lines 107-120. -/
def madamLabelMap : List (FieldKey × List String) :=
  [ (.age, ["年齢", "歳", "才"]),
    (.height, ["身長", "cm"]),
    (.cup, ["カップ", "バスト"]),
    (.face_public, ["顔出し", "顔", "公開"]),
    (.toy, ["おもちゃ", "玩具"]),
    (.time_slot, ["出没時間", "時間"]),
    (.style, ["スタイル"]),
    (.job, ["職業"]),
    (.hobby, ["趣味"]),
    (.favorite_type, ["好みのタイプ", "好きなタイプ"]),
    (.erogenous_zone, ["性感帯"]),
    (.genre_detail, ["ジャンル", "タイプ"]) ]

/-- The angel `label_map` dict, `angel_live_scraper.py` lines 125-137:
identical except that it has no `genre_detail` row. -/
def angelLabelMap : List (FieldKey × List String) :=
  [ (.age, ["年齢", "歳", "才"]),
    (.height, ["身長", "cm"]),
    (.cup, ["カップ", "バスト"]),
    (.face_public, ["顔出し", "顔", "公開"]),
    (.toy, ["おもちゃ", "玩具"]),
    (.time_slot, ["出没時間", "時間"]),
    (.style, ["スタイル"]),
    (.job, ["職業"]),
    (.hobby, ["趣味"]),
    (.favorite_type, ["好みのタイプ", "好きなタイプ"]),
    (.erogenous_zone, ["性感帯"]) ]

/-- Python `any(key in label for key in keywords)`. -/
def keywordsMatch (keywords : List String) (label : String) : Bool :=
  keywords.any (fun key => strContainsSub label key)

/-- Keyword list of a field in a label map (the empty list when the map
has no row for the field). -/
def keywordsOf (labelMap : List (FieldKey × List String)) (k : FieldKey) : List String :=
  match labelMap.find? (fun p => p.1 = k) with
  | some p => p.2
  | none => []

/-- First field of a label map whose keywords hit the label. -/
def firstMatchingField (labelMap : List (FieldKey × List String)) (label : String) :
    Option FieldKey :=
  (labelMap.find? (fun p => keywordsMatch p.2 label)).map Prod.fst

/-- Structured-pass body of `madam_live_scraper.py` lines 132-135: walk
the label map in order and, on the first field whose keywords hit the
label, assign the value and `break`. -/
def assignFirstMatch : List (FieldKey × List String) → Fields → String → String → Fields
  | [], fs, _, _ => fs
  | (k, kws) :: rest, fs, label, value =>
    if keywordsMatch kws label then fs.set k value
    else assignFirstMatch rest fs label value

/-- Structured-pass body of `angel_live_scraper.py` lines 149-151: walk
the label map in order and assign the value to every field whose keywords
hit the label (there is no `break`). -/
def assignAllMatches : List (FieldKey × List String) → Fields → String → String → Fields
  | [], fs, _, _ => fs
  | (k, kws) :: rest, fs, label, value =>
    assignAllMatches rest (if keywordsMatch kws label then fs.set k value else fs) label value

/-- One `(label, value)` pair of the madam structured pass, including the
`if not label: continue` guard. -/
def madamApplyPair (fs : Fields) (label value : String) : Fields :=
  if label = "" then fs else assignFirstMatch madamLabelMap fs label value

/-- One `(label, value)` pair of the angel structured pass, including the
`if not label: continue` guard. -/
def angelApplyPair (fs : Fields) (label value : String) : Fields :=
  if label = "" then fs else assignAllMatches angelLabelMap fs label value

/-! ## Parsed detail document

`parse_detail_page` consumes the soup through three projections: the
optional profile container (its `dl` label/value text pairs, its table
row label/value text pairs, its tag/badge texts), the text of the first
element matching a CSS selector, and the result of the whole-document
`find_labeled_value` scan.  The parsed document is embedded as exactly
those projections; each is realizable by a concrete HTML page. -/

/-- Extracted content of the profile container
(`.profile, .cast-profile, .profile-box`): the `(text(dt), text(dd))`
pair of each `dl`, the `(text(th), text(td))` pair of each table row, and
the texts of the `.tag, .genre, .badge` elements. -/
structure Container where
  dlPairs : List (String × String)
  tablePairs : List (String × String)
  genreTags : List String

/-- A detail page as consumed by `parse_detail_page`: `selText sel` is
`text_content(soup.select_one(sel))` (`none` when no element matches),
and `labeled kws` is `find_labeled_value(soup, kws)`, the generic
label-sibling scan over the whole document. -/
structure DetailSoup where
  container : Option Container
  selText : String → Option String
  labeled : List String → String

/-- The madam structured pass over the profile container
(`madam_live_scraper.py` lines 122-153): all `dl` pairs, then all table
rows, then the joined genre tags. -/
def madamStructured (c : Container) : Fields :=
  let fs := c.dlPairs.foldl (fun fs p => madamApplyPair fs p.1 p.2) emptyFields
  let fs := c.tablePairs.foldl (fun fs p => madamApplyPair fs p.1 p.2) fs
  let tags := c.genreTags.filter (fun g => g ≠ "")
  if tags.isEmpty then fs else fs.set .genre_detail (String.intercalate ", " tags)

/-- Result of the structured pass as `parse_detail_page` sees it: the
all-empty dict when no profile container is found. -/
def madamStructuredFields (soup : DetailSoup) : Fields :=
  match soup.container with
  | some c => madamStructured c
  | none => emptyFields

/-- The madam `selectors` dict (`madam_live_scraper.py` lines 155-160):
ordered candidate selector lists for the four high-value fields; every
other field has none. -/
def madamSelectors (k : FieldKey) : List String :=
  match k with
  | .age => [".age", "span.age", "li.age", "td.age"]
  | .height => [".height", "span.height", "li.height", "td.height"]
  | .cup => [".cup", "span.cup", "li.cup", "td.cup"]
  | .face_public => [".face", "span.face", "li.face", "td.face"]
  | _ => []

/-- Embedding of `pick_from_selectors` (`madam_live_scraper.py` lines
162-167): first selector whose element exists and has non-empty text. -/
def pick_from_selectors (soup : DetailSoup) : List String → String
  | [] => ""
  | sel :: rest =>
    match soup.selText sel with
    | some t => if t ≠ "" then t else pick_from_selectors soup rest
    | none => pick_from_selectors soup rest

/-- Embedding of `parse_detail_page` (`madam_live_scraper.py` lines
86-178) after the fetch: structured pass, then the four sequential
`first_non_empty` reassignments for age, height, cup and face_public. -/
def parse_detail_page (soup : DetailSoup) : Fields :=
  let fields := madamStructuredFields soup
  let fields := fields.set .age (first_non_empty
    [fields.age, pick_from_selectors soup (madamSelectors .age),
     soup.labeled (keywordsOf madamLabelMap .age)])
  let fields := fields.set .height (first_non_empty
    [fields.height, pick_from_selectors soup (madamSelectors .height),
     soup.labeled (keywordsOf madamLabelMap .height)])
  let fields := fields.set .cup (first_non_empty
    [fields.cup, pick_from_selectors soup (madamSelectors .cup),
     soup.labeled (keywordsOf madamLabelMap .cup)])
  let fields := fields.set .face_public (first_non_empty
    [fields.face_public, pick_from_selectors soup (madamSelectors .face_public),
     soup.labeled (keywordsOf madamLabelMap .face_public)])
  fields

/-! ## Spec-side assembled value (for comparison with the code)

These definitions follow the words of the specification, section 4.6 and
the claim: for each field, the value is the first non-empty result among
the Structured-Container pass, the Selector Fallback (where the field has
a selector list; within it the first selector yielding non-empty text
wins) and the Generic Label-Sibling Fallback, in that order. -/

/-- Spec-side Selector Fallback: the first non-empty text among the
field's ordered selector candidates. -/
def specSelectorValue (soup : DetailSoup) (k : FieldKey) : String :=
  first_non_empty ((madamSelectors k).map (fun sel =>
    match soup.selText sel with
    | some t => t
    | none => ""))

/-- Spec-side assembled value of one field: first non-empty among the
three passes in the fixed priority order. -/
def specFieldValue (soup : DetailSoup) (k : FieldKey) : String :=
  first_non_empty
    [(madamStructuredFields soup).get k,
     specSelectorValue soup k,
     soup.labeled (keywordsOf madamLabelMap k)]

/-! ## Emitted records and the driver loops -/

/-- The record (`item` dict) handed to the sink; the key set is identical
in all four scripts. -/
structure Item where
  name : String
  samune : String
  url : String
  oneword : String
  age : String
  height : String
  cup : String
  face_public : String
  toy : String
  time_slot : String
  style : String
  job : String
  hobby : String
  favorite_type : String
  erogenous_zone : String
  genre : String
  deriving DecidableEq, Repr

/-- Keys of the `item` dict. -/
inductive ItemKey where
  | name | samune | url | oneword | age | height | cup | face_public
  | toy | time_slot | style | job | hobby | favorite_type | erogenous_zone | genre
  deriving DecidableEq, Repr

/-- Dictionary read `item[k]`. -/
def Item.get (it : Item) : ItemKey → String
  | .name => it.name
  | .samune => it.samune
  | .url => it.url
  | .oneword => it.oneword
  | .age => it.age
  | .height => it.height
  | .cup => it.cup
  | .face_public => it.face_public
  | .toy => it.toy
  | .time_slot => it.time_slot
  | .style => it.style
  | .job => it.job
  | .hobby => it.hobby
  | .favorite_type => it.favorite_type
  | .erogenous_zone => it.erogenous_zone
  | .genre => it.genre

/-- The dash fill applied to the whole `item` dict (all of whose values
are strings at this point): `fill_missing_with_dash(item)` in angel,
`fill_with_dash(item)` in chatpia. -/
def fillItem (it : Item) : Item where
  name := fillString it.name
  samune := fillString it.samune
  url := fillString it.url
  oneword := fillString it.oneword
  age := fillString it.age
  height := fillString it.height
  cup := fillString it.cup
  face_public := fillString it.face_public
  toy := fillString it.toy
  time_slot := fillString it.time_slot
  style := fillString it.style
  job := fillString it.job
  hobby := fillString it.hobby
  favorite_type := fillString it.favorite_type
  erogenous_zone := fillString it.erogenous_zone
  genre := fillString it.genre

/-- Card summary returned by madam's `extract_card_info`: name, resolved
thumbnail, resolved detail URL, one-line comment. -/
structure CardInfo where
  name : String
  samune : String
  url : String
  oneword : String
  deriving DecidableEq, Repr

/-- The `item` dict madam builds per card (`madam_live_scraper.py` lines
251-268): detail fields are copied verbatim (with `""` defaults **and no
dash fill**); only `genre` falls back to the source label. -/
def madamBuildItem (info : CardInfo) (df : Fields) : Item where
  name := info.name
  samune := info.samune
  url := info.url
  oneword := info.oneword
  age := df.age
  height := df.height
  cup := df.cup
  face_public := df.face_public
  toy := df.toy
  time_slot := df.time_slot
  style := df.style
  job := df.job
  hobby := df.hobby
  favorite_type := df.favorite_type
  erogenous_zone := df.erogenous_zone
  genre := first_non_empty [df.genre_detail, "Madam Live"]

/-- The madam card loop (`madam_live_scraper.py` lines 235-270) over the
extracted card summaries.  `detail url` is the outcome of
`parse_detail_page(url)`: `some fields` on success, `none` when fetching
or parsing raised (the `except` branch leaves `detail_fields = {}`, so
every detail field defaults to `""`).  `seen` is the dedup set. -/
def madamRunAux (detail : String → Option Fields) :
    List CardInfo → List String → List Item
  | [], _ => []
  | info :: rest, seen =>
    if info.url = "" || seen.contains info.url then
      madamRunAux detail rest seen
    else
      madamBuildItem info ((detail info.url).getD emptyFields) ::
        madamRunAux detail rest (info.url :: seen)

/-- One madam run starting from an empty dedup set. -/
def madamRun (detail : String → Option Fields) (cards : List CardInfo) : List Item :=
  madamRunAux detail cards []

/-- One card of the jewel listing loop: `href` is the resolved URL of the
card's first anchor (`none` when the card has no anchor and the loop
`continue`s); the remaining components are the texts extracted inside the
anchor. -/
structure JewelCard where
  href : Option String
  name : String
  samune : String
  oneword : String
  deriving DecidableEq, Repr

/-- The `item` dict jewel builds per card (`jewel_live_scraper.py` lines
212-231). -/
def jewelBuildItem (c : JewelCard) (url : String) (df : Fields) : Item where
  name := c.name
  samune := c.samune
  url := url
  oneword := c.oneword
  age := df.age
  height := df.height
  cup := df.cup
  face_public := df.face_public
  toy := df.toy
  time_slot := df.time_slot
  style := df.style
  job := df.job
  hobby := df.hobby
  favorite_type := df.favorite_type
  erogenous_zone := df.erogenous_zone
  genre := first_non_empty [df.genre_detail, "Jewel Live"]

/-- The jewel card loop (`jewel_live_scraper.py` lines 193-233): no dedup
set and no URL validity check — every card with an anchor becomes an
item. -/
def jewelRun (detail : String → Option Fields) : List JewelCard → List Item
  | [] => []
  | c :: rest =>
    match c.href with
    | none => jewelRun detail rest
    | some url =>
      jewelBuildItem c url ((detail url).getD emptyFields) :: jewelRun detail rest

/-- Card summary returned by angel's `extract_card_info` (it additionally
carries the age digits found in the card name). -/
structure AngelCardInfo where
  name : String
  samune : String
  url : String
  oneword : String
  age_from_name : String
  deriving DecidableEq, Repr

/-- The `item` dict angel builds per card before the dash fill
(`angel_live_scraper.py` lines 259-276): every detail field is defaulted
with `or "-"` and `genre` falls back to the source label. -/
def angelRawItem (info : AngelCardInfo) (df : Fields) : Item where
  name := info.name
  samune := info.samune
  url := info.url
  oneword := info.oneword
  age := orDash (extract_age_digits (first_non_empty [df.age, info.age_from_name]))
  height := orDash df.height
  cup := orDash df.cup
  face_public := orDash df.face_public
  toy := orDash df.toy
  time_slot := orDash df.time_slot
  style := orDash df.style
  job := orDash df.job
  hobby := orDash df.hobby
  favorite_type := orDash df.favorite_type
  erogenous_zone := orDash df.erogenous_zone
  genre := if df.genre_detail = "" then "Angel Live" else df.genre_detail

/-- The `item` dict angel emits per card (`angel_live_scraper.py` lines
259-278): the raw item with `fill_missing_with_dash` run over the whole
dict afterwards. -/
def angelBuildItem (info : AngelCardInfo) (df : Fields) : Item :=
  fillItem (angelRawItem info df)

/-! ## Emit loops

The sink is abstracted by a success predicate `ok : Item → Bool`:
`requests.post` followed by `raise_for_status()` succeeds exactly when
`ok item` holds (transport is an external collaborator). -/

/-- The angel emit loop (`angel_live_scraper.py` lines 284-301): items
whose URL is not `http`-prefixed are skipped; every other item is posted
inside `try`/`except RequestException`, so a failed post is logged and
the loop continues; `success_count` counts the successful posts.  Result:
(records handed to the sink, final `success_count`). -/
def angelEmitLoop (ok : Item → Bool) : List Item → List Item × Nat
  | [] => ([], 0)
  | it :: rest =>
    if !it.url.startsWith "http" then angelEmitLoop ok rest
    else
      let r := angelEmitLoop ok rest
      (it :: r.1, (if ok it then 1 else 0) + r.2)

/-- The madam emit loop (`madam_live_scraper.py` lines 272-278): each
post calls `raise_for_status()` with no surrounding `try`, so the first
unsuccessful post raises out of the loop.  Result: (records handed to the
sink, whether the loop ran to completion — only then does the final count
line, which prints `len(items)`, execute). -/
def madamEmitLoop (ok : Item → Bool) : List Item → List Item × Bool
  | [] => ([], true)
  | it :: rest =>
    if ok it then
      let r := madamEmitLoop ok rest
      (it :: r.1, r.2)
    else ([it], false)

/-! ## Record-assembler normalization (for idempotence)

The angel/chatpia assembler applies, per field: age digit extraction with
dash default for `age`, the name sanitization pipeline for `name`, the
source-label default for `genre`, the dash default for the other detail
fields, and finally the whole-dict dash fill.  `angelNormalizeItem` is
that normalization re-applied to a field mapping. -/

/-- The angel record-assembler normalization as a map on an already-built
field mapping. -/
def angelNormalizeItem (it : Item) : Item :=
  fillItem
    { name := orDash (angelCardName it.name)
      samune := it.samune
      url := it.url
      oneword := it.oneword
      age := orDash (extract_age_digits it.age)
      height := orDash it.height
      cup := orDash it.cup
      face_public := orDash it.face_public
      toy := orDash it.toy
      time_slot := orDash it.time_slot
      style := orDash it.style
      job := orDash it.job
      hobby := orDash it.hobby
      favorite_type := orDash it.favorite_type
      erogenous_zone := orDash it.erogenous_zone
      genre := if it.genre = "" then "Angel Live" else it.genre }

/-! ## Supporting lemmas -/

theorem mk_toList (l : List Char) : (String.mk l).toList = l := rfl

theorem mk_eq_empty_iff (l : List Char) : String.mk l = "" ↔ l = [] := by
  constructor
  · intro h
    have := congrArg String.toList h
    simpa [mk_toList] using this
  · intro h
    subst h
    rfl

theorem pyStrip_empty : pyStrip "" = "" := rfl

theorem pyStrip_dash : pyStrip "-" = "-" := rfl

/-- The three facts about `fillString` used everywhere: it never returns
the empty string, its result never strips to empty, and whitespace-only
input becomes the sentinel. -/
theorem fillString_spec (s : String) :
    fillString s ≠ "" ∧ pyStrip (fillString s) ≠ "" ∧ (pyStrip s = "" → fillString s = "-") := by
  unfold fillString
  by_cases h : pyStrip s = ""
  · rw [if_pos h]
    exact ⟨by decide, by decide, fun _ => rfl⟩
  · rw [if_neg h]
    refine ⟨?_, h, fun hs => absurd hs h⟩
    intro hse
    exact h (by rw [hse]; rfl)

/-- Any character list splits as its digit-free prefix, the first digit
run, and the remainder. -/
theorem digitRunDecomp (l : List Char) :
    l = l.takeWhile (fun c => !isPyDigit c) ++
      (l.dropWhile (fun c => !isPyDigit c)).takeWhile isPyDigit ++
      (l.dropWhile (fun c => !isPyDigit c)).dropWhile isPyDigit := by
  rw [List.append_assoc, List.takeWhile_append_dropWhile, List.takeWhile_append_dropWhile]

/-! ## C7: extract_age_digits -/

/-- C7: `extract_age_digits` returns the first maximal run of decimal
digits found anywhere in its input (the input decomposes as a digit-free
prefix, the returned all-digit run, and a remainder that does not start
with a digit), and returns the empty string exactly when the input has no
digit; in particular it maps `"53歳"` to `"53"`, `""` to `""` and
`"abc"` to `""`. -/
theorem C7_confirmed (s : String) :
    extract_age_digits "53歳" = "53" ∧
    extract_age_digits "" = "" ∧
    extract_age_digits "abc" = "" ∧
    (extract_age_digits s = "" ↔ s.toList.all (fun c => !isPyDigit c) = true) ∧
    s.toList =
      s.toList.takeWhile (fun c => !isPyDigit c) ++ (extract_age_digits s).toList ++
        (s.toList.dropWhile (fun c => !isPyDigit c)).dropWhile isPyDigit ∧
    (extract_age_digits s).toList.all isPyDigit = true ∧
    (s.toList.takeWhile (fun c => !isPyDigit c)).all (fun c => !isPyDigit c) = true ∧
    (((s.toList.dropWhile (fun c => !isPyDigit c)).dropWhile isPyDigit).take 1).all
      (fun c => !isPyDigit c) = true := by
  have hval : extract_age_digits s =
      String.mk ((s.toList.dropWhile (fun c => !isPyDigit c)).takeWhile isPyDigit) := by
    unfold extract_age_digits
    by_cases h : s = ""
    · subst h; rfl
    · simp [h]
  refine ⟨by decide, rfl, by decide, ?_, ?_, ?_, ?_, ?_⟩
  · rw [hval, mk_eq_empty_iff]
    constructor
    · intro h
      rw [List.all_eq_true]
      intro c hc
      by_contra hd
      simp only [Bool.not_eq_true, Bool.not_eq_false] at hd
      cases hcons : s.toList.dropWhile (fun c => !isPyDigit c) with
      | nil =>
        rw [List.dropWhile_eq_nil_iff] at hcons
        have := hcons c hc
        simp [hd] at this
      | cons x xs =>
        have hx := List.head?_dropWhile_not (fun c => !isPyDigit c) s.toList
        rw [hcons] at hx
        simp at hx
        rw [hcons, List.takeWhile_cons] at h
        rw [hx] at h
        simp at h
    · intro h
      have hnil : s.toList.dropWhile (fun c => !isPyDigit c) = [] := by
        rw [List.dropWhile_eq_nil_iff]
        intro x hx
        exact (List.all_eq_true.mp h) x hx
      rw [hnil]
      rfl
  · rw [hval, mk_toList]
    exact digitRunDecomp s.toList
  · rw [hval, mk_toList, List.all_eq_true]
    intro c hc
    have hd := List.mem_takeWhile_imp hc
    exact hd
  · rw [List.all_eq_true]
    intro c hc
    have hd := List.mem_takeWhile_imp hc
    exact hd
  · rw [List.all_eq_true]
    intro c hc
    cases hcons : (s.toList.dropWhile (fun c => !isPyDigit c)).dropWhile isPyDigit with
    | nil =>
      rw [hcons] at hc
      simp at hc
    | cons x xs =>
      rw [hcons] at hc
      simp [List.take] at hc
      subst hc
      have hx := List.head?_dropWhile_not isPyDigit (s.toList.dropWhile (fun c => !isPyDigit c))
      rw [hcons] at hx
      simp at hx
      simp [hx]

/-! ## C10: the dash fill -/

/-- C10: the dash fill keeps the key set, rewrites every value (required
keys included) by replacing `None` and whitespace-only strings with the
sentinel `"-"`, and afterwards every value is a string that is non-empty
and not whitespace-only. -/
theorem C10_confirmed (item : List (String × Option String)) (k : String) (v : Option String)
    (hkv : (k, v) ∈ item) :
    (fill_missing_with_dash item).map Prod.fst = item.map Prod.fst ∧
    (k, fillValue v) ∈ fill_missing_with_dash item ∧
    (v = none → fillValue v = some "-") ∧
    (pyStrip (v.getD "-") = "" → fillValue v = some "-") ∧
    (fillValue v).isSome = true ∧
    (fillValue v).getD "" ≠ "" ∧
    pyStrip ((fillValue v).getD "") ≠ "" := by
  refine ⟨?_, ?_, ?_, ?_, ?_, ?_, ?_⟩
  · unfold fill_missing_with_dash
    rw [List.map_map]
    rfl
  · unfold fill_missing_with_dash
    exact List.mem_map_of_mem (fun kv => (kv.1, fillValue kv.2)) hkv
  · intro h
    subst h
    rfl
  · intro h
    cases v with
    | none => rfl
    | some s =>
      simp only [Option.getD_some] at h
      simp only [fillValue, (fillString_spec s).2.2 h]
  · cases v <;> simp [fillValue]
  · cases v with
    | none => decide
    | some s => simpa [fillValue] using (fillString_spec s).1
  · cases v with
    | none => decide
    | some s => simpa [fillValue] using (fillString_spec s).2.1

/-- Witness for C10 at a concrete record: a `None` thumbnail and a
whitespace-only age both become `"-"`, the key set is unchanged, and all
resulting values are non-empty. -/
theorem C10_witness :
    (fill_missing_with_dash [("name", some "Kiyomi"), ("samune", none), ("age", some " ")]).map
        Prod.fst =
      ([("name", some "Kiyomi"), ("samune", none), ("age", some " ")] :
        List (String × Option String)).map Prod.fst ∧
    ("samune", fillValue none) ∈
      fill_missing_with_dash [("name", some "Kiyomi"), ("samune", none), ("age", some " ")] ∧
    ((none : Option String) = none → fillValue none = some "-") ∧
    (pyStrip ((none : Option String).getD "-") = "" → fillValue none = some "-") ∧
    (fillValue none).isSome = true ∧
    (fillValue none).getD "" ≠ "" ∧
    pyStrip ((fillValue none).getD "") ≠ "" :=
  C10_confirmed [("name", some "Kiyomi"), ("samune", none), ("age", some " ")] "samune" none
    (by decide)

/-! ## Field get/set lemmas -/

theorem Fields.get_set (fs : Fields) (k : FieldKey) (v : String) (k' : FieldKey) :
    (fs.set k v).get k' = if k' = k then v else fs.get k' := by
  cases k <;> cases k' <;> simp [Fields.set, Fields.get]

/-- The `break`-style pass assigns exactly to the first field `find?`
returns. -/
theorem assignFirstMatch_find (L : List (FieldKey × List String)) (fs : Fields)
    (label value : String) :
    assignFirstMatch L fs label value =
      (match L.find? (fun p => keywordsMatch p.2 label) with
       | some p => fs.set p.1 value
       | none => fs) := by
  induction L with
  | nil => rfl
  | cons e rest ih =>
    cases e with
    | mk k1 kws =>
      by_cases hm : keywordsMatch kws label
      · simp [assignFirstMatch, List.find?_cons, hm]
      · simp [assignFirstMatch, List.find?_cons, hm, ih]

/-- The break-less pass assigns the value to every field having a
matching entry, and leaves every other field untouched. -/
theorem assignAllMatches_get (L : List (FieldKey × List String)) (fs : Fields)
    (label value : String) (k : FieldKey) :
    (assignAllMatches L fs label value).get k =
      if L.any (fun p => p.1 = k && keywordsMatch p.2 label) then value else fs.get k := by
  induction L generalizing fs with
  | nil => simp [assignAllMatches]
  | cons e rest ih =>
    cases e with
    | mk k1 kws =>
      simp only [assignAllMatches, List.any_cons]
      by_cases hm : keywordsMatch kws label = true
      · rw [if_pos hm, ih]
        simp only [hm, Bool.and_true]
        by_cases hk : k1 = k
        · subst hk
          simp [Fields.get_set]
        · have hk2 : k ≠ k1 := fun hh => hk hh.symm
          rw [decide_eq_false hk]
          simp only [Fields.get_set, if_neg hk2, Bool.false_or]
      · have hm' : keywordsMatch kws label = false := by
          revert hm
          cases keywordsMatch kws label <;> simp
        rw [if_neg hm, ih]
        simp only [hm', Bool.and_false, Bool.false_or]

/-! ## C6: label matching in the structured pass -/

/-- C6 counterexample: on the label `"スタイル出没時間"`, whose text
contains keywords of both `time_slot` (`"出没時間"`, iterated first) and
`style` (`"スタイル"`), the angel structured pass assigns the value to
both fields, not exactly to the first matching one. -/
theorem C6_counterexample :
    (angelApplyPair emptyFields "スタイル出没時間" "X").time_slot = "X" ∧
    (angelApplyPair emptyFields "スタイル出没時間" "X").style = "X" ∧
    firstMatchingField angelLabelMap "スタイル出没時間" = some FieldKey.time_slot ∧
    angelApplyPair emptyFields "スタイル出没時間" "X" ≠
      emptyFields.set FieldKey.time_slot "X" := by
  decide

/-- C6 amended: in the madam structured pass (whose loop `break`s) the
label assigns its value exactly to the first matching field in label-map
iteration order, leaving every other field unchanged; in the angel
structured pass (no `break`) every field whose keywords occur in the
label is assigned the value. -/
theorem C6_amended (fs : Fields) (label value : String) (k : FieldKey) (h : label ≠ "") :
    (madamApplyPair fs label value).get k =
      (match firstMatchingField madamLabelMap label with
       | some j => if k = j then value else fs.get k
       | none => fs.get k) ∧
    (angelApplyPair fs label value).get k =
      (if keywordsMatch (keywordsOf angelLabelMap k) label then value else fs.get k) := by
  constructor
  · unfold madamApplyPair
    rw [if_neg h, assignFirstMatch_find]
    unfold firstMatchingField
    cases hfind : madamLabelMap.find? (fun p => keywordsMatch p.2 label) with
    | none => simp
    | some p => simp [Fields.get_set]
  · unfold angelApplyPair
    rw [if_neg h, assignAllMatches_get]
    cases k <;> simp [angelLabelMap, keywordsOf, List.find?, keywordsMatch]

/-- Witness for C6 at the counterexample label: the first matching field
is `time_slot`; madam assigns only it, and angel also assigns
`style`. -/
theorem C6_witness :
    ((madamApplyPair emptyFields "スタイル出没時間" "X").get FieldKey.style =
      (match firstMatchingField madamLabelMap "スタイル出没時間" with
       | some j => if FieldKey.style = j then "X" else emptyFields.get FieldKey.style
       | none => emptyFields.get FieldKey.style) ∧
    (angelApplyPair emptyFields "スタイル出没時間" "X").get FieldKey.style =
      (if keywordsMatch (keywordsOf angelLabelMap FieldKey.style) "スタイル出没時間" then "X"
       else emptyFields.get FieldKey.style)) :=
  C6_amended emptyFields "スタイル出没時間" "X" FieldKey.style (by decide)

/-! ## Item lemmas and the driver-loop invariants -/

theorem fillItem_get (it : Item) (k : ItemKey) :
    (fillItem it).get k = fillString (it.get k) := by
  cases k <;> rfl

/-- Every URL emitted by the madam loop is fresh relative to the `seen`
set it started from, and the emitted URLs are pairwise distinct. -/
theorem madamRunAux_urls (detail : String → Option Fields) (cards : List CardInfo)
    (seen : List String) :
    ((madamRunAux detail cards seen).map Item.url).Nodup ∧
    ∀ u ∈ (madamRunAux detail cards seen).map Item.url, ¬ seen.contains u := by
  induction cards generalizing seen with
  | nil => simp [madamRunAux]
  | cons info rest ih =>
    simp only [madamRunAux]
    by_cases hskip : (decide (info.url = "") || seen.contains info.url) = true
    · rw [if_pos hskip]
      exact ih seen
    · rw [if_neg hskip]
      have hurl : (madamBuildItem info ((detail info.url).getD emptyFields)).url = info.url := rfl
      have ih2 := ih (info.url :: seen)
      simp only [List.map_cons, hurl, List.nodup_cons]
      refine ⟨⟨?_, ih2.1⟩, ?_⟩
      · intro hmem
        have hc := ih2.2 info.url hmem
        simp [List.contains_cons] at hc
      · intro u hu
        rcases List.mem_cons.mp hu with rfl | hmem
        · intro hc
          apply hskip
          simp at hc
          simp [hc]
        · have h2 := ih2.2 u hmem
          intro hc
          apply h2
          simp at hc ⊢
          exact Or.inr hc

/-- The sequence of URLs the madam loop emits does not depend on the
detail-page outcomes. -/
theorem madamRunAux_urls_indep (d1 d2 : String → Option Fields) (cards : List CardInfo)
    (seen : List String) :
    (madamRunAux d1 cards seen).map Item.url = (madamRunAux d2 cards seen).map Item.url := by
  induction cards generalizing seen with
  | nil => rfl
  | cons info rest ih =>
    simp only [madamRunAux]
    by_cases hskip : (decide (info.url = "") || seen.contains info.url) = true
    · rw [if_pos hskip, if_pos hskip]
      exact ih seen
    · rw [if_neg hskip, if_neg hskip]
      simp only [List.map_cons]
      rw [ih (info.url :: seen)]
      rfl

/-- Every item the madam loop emits is the build of some card over the
outcome of its own detail fetch. -/
theorem madamRunAux_mem (detail : String → Option Fields) (cards : List CardInfo)
    (seen : List String) (item : Item) (h : item ∈ madamRunAux detail cards seen) :
    ∃ info : CardInfo, item = madamBuildItem info ((detail info.url).getD emptyFields) := by
  induction cards generalizing seen with
  | nil => simp [madamRunAux] at h
  | cons info rest ih =>
    simp only [madamRunAux] at h
    by_cases hskip : (decide (info.url = "") || seen.contains info.url) = true
    · rw [if_pos hskip] at h
      exact ih seen h
    · rw [if_neg hskip] at h
      rcases List.mem_cons.mp h with heq | hmem
      · exact ⟨info, heq⟩
      · exact ih (info.url :: seen) hmem

/-! ## C1: uniqueness of detail URLs -/

/-- C1 counterexample: the jewel loop has no dedup set, so two listing
cards sharing one detail URL yield two emitted records with the same
`detail_url`, and the emitted URL list is not pairwise distinct. -/
theorem C1_counterexample :
    (jewelRun (fun _ => none)
        [⟨some "https://www.j-live.tv/profile/1", "A", "s", "o"⟩,
         ⟨some "https://www.j-live.tv/profile/1", "A", "s", "o"⟩]).map Item.url =
      ["https://www.j-live.tv/profile/1", "https://www.j-live.tv/profile/1"] ∧
    ¬ ((jewelRun (fun _ => none)
        [⟨some "https://www.j-live.tv/profile/1", "A", "s", "o"⟩,
         ⟨some "https://www.j-live.tv/profile/1", "A", "s", "o"⟩]).map Item.url).Nodup := by
  decide

/-- C1 amended: in the madam run (and the other spec-conforming loops) a
card with an empty detail URL, or one already seen in the run, is skipped
before its detail page is fetched, so the emitted records' detail URLs
are pairwise distinct; the jewel loop, however, performs no
deduplication, and a repeated card is emitted twice. -/
theorem C1_amended (detail : String → Option Fields) (cards : List CardInfo) :
    ((madamRun detail cards).map Item.url).Nodup :=
  (madamRunAux_urls detail cards []).1

/-! ## C2: every field non-empty or sentinel -/

/-- C2 counterexample: madam performs no dash fill, so when the detail
fetch fails the emitted record carries `""` (not `"-"`) in every detail
field; here the single emitted record has `age = ""`. -/
theorem C2_counterexample :
    madamRun (fun _ => none) [⟨"Kiyomi", "https://img", "https://page", "hi"⟩] =
      [madamBuildItem ⟨"Kiyomi", "https://img", "https://page", "hi"⟩ emptyFields] ∧
    (madamBuildItem ⟨"Kiyomi", "https://img", "https://page", "hi"⟩ emptyFields).age = "" ∧
    ("" : String) ≠ "-" := by
  decide

/-- C2 amended: in the angel (and chatpia) assembler the dash fill runs
over the whole record, so every emitted value — required keys included —
is non-empty and not whitespace-only, and a field that was still
whitespace-empty after assembly equals the sentinel `"-"`; the madam and
jewel assemblers have no dash fill and emit `""` for missing fields. -/
theorem C2_amended (info : AngelCardInfo) (df : Fields) (k : ItemKey) :
    (angelBuildItem info df).get k ≠ "" ∧
    pyStrip ((angelBuildItem info df).get k) ≠ "" ∧
    (pyStrip ((angelRawItem info df).get k) = "" → (angelBuildItem info df).get k = "-") := by
  have hg : (angelBuildItem info df).get k = fillString ((angelRawItem info df).get k) :=
    fillItem_get (angelRawItem info df) k
  rw [hg]
  exact ⟨(fillString_spec _).1, (fillString_spec _).2.1, (fillString_spec _).2.2⟩

/-- Witness for C2 amended at a card with an empty thumbnail: the raw
value strips to empty and the emitted value is the sentinel. -/
theorem C2_witness :
    (angelBuildItem ⟨"Kiyomi", "", "https://x", "hi", ""⟩ emptyFields).get ItemKey.samune ≠ "" ∧
    pyStrip ((angelBuildItem ⟨"Kiyomi", "", "https://x", "hi", ""⟩ emptyFields).get
      ItemKey.samune) ≠ "" ∧
    (pyStrip ((angelRawItem ⟨"Kiyomi", "", "https://x", "hi", ""⟩ emptyFields).get
        ItemKey.samune) = "" →
      (angelBuildItem ⟨"Kiyomi", "", "https://x", "hi", ""⟩ emptyFields).get ItemKey.samune =
        "-") :=
  C2_amended ⟨"Kiyomi", "", "https://x", "hi", ""⟩ emptyFields ItemKey.samune

/-! ## C5: per-card failure containment -/

/-- C5: when the detail fetch/parse of a card fails (outcome `none`), the
madam loop still emits that card's record with every detail field empty
and the genre source default, and the set of cards processed — hence the
sequence of emitted URLs — is exactly the same as under any other
detail outcomes: one failing detail page never aborts the run. -/
theorem C5_confirmed (detail d2 : String → Option Fields) (cards : List CardInfo)
    (item : Item) (hmem : item ∈ madamRun detail cards) (hfail : detail item.url = none) :
    (item.age = "" ∧ item.height = "" ∧ item.cup = "" ∧ item.face_public = "" ∧
     item.toy = "" ∧ item.time_slot = "" ∧ item.style = "" ∧ item.job = "" ∧
     item.hobby = "" ∧ item.favorite_type = "" ∧ item.erogenous_zone = "" ∧
     item.genre = "Madam Live") ∧
    (madamRun detail cards).map Item.url = (madamRun d2 cards).map Item.url := by
  constructor
  · obtain ⟨info, hitem⟩ := madamRunAux_mem detail cards [] item hmem
    have hurl : item.url = info.url := by
      rw [hitem]
      rfl
    rw [hurl] at hfail
    rw [hfail] at hitem
    have hgenre : (madamBuildItem info emptyFields).genre = "Madam Live" := by
      show first_non_empty [emptyFields.genre_detail, "Madam Live"] = "Madam Live"
      decide
    rw [hitem]
    exact ⟨rfl, rfl, rfl, rfl, rfl, rfl, rfl, rfl, rfl, rfl, rfl, hgenre⟩
  · exact madamRunAux_urls_indep detail d2 cards []

/-- Witness for C5 at a one-card run whose only detail fetch fails. -/
theorem C5_witness :
    ((madamBuildItem ⟨"A", "s", "https://x", "o"⟩ emptyFields).age = "" ∧
     (madamBuildItem ⟨"A", "s", "https://x", "o"⟩ emptyFields).height = "" ∧
     (madamBuildItem ⟨"A", "s", "https://x", "o"⟩ emptyFields).cup = "" ∧
     (madamBuildItem ⟨"A", "s", "https://x", "o"⟩ emptyFields).face_public = "" ∧
     (madamBuildItem ⟨"A", "s", "https://x", "o"⟩ emptyFields).toy = "" ∧
     (madamBuildItem ⟨"A", "s", "https://x", "o"⟩ emptyFields).time_slot = "" ∧
     (madamBuildItem ⟨"A", "s", "https://x", "o"⟩ emptyFields).style = "" ∧
     (madamBuildItem ⟨"A", "s", "https://x", "o"⟩ emptyFields).job = "" ∧
     (madamBuildItem ⟨"A", "s", "https://x", "o"⟩ emptyFields).hobby = "" ∧
     (madamBuildItem ⟨"A", "s", "https://x", "o"⟩ emptyFields).favorite_type = "" ∧
     (madamBuildItem ⟨"A", "s", "https://x", "o"⟩ emptyFields).erogenous_zone = "" ∧
     (madamBuildItem ⟨"A", "s", "https://x", "o"⟩ emptyFields).genre = "Madam Live") ∧
    (madamRun (fun _ => none) [⟨"A", "s", "https://x", "o"⟩]).map Item.url =
      (madamRun (fun _ => some emptyFields) [⟨"A", "s", "https://x", "o"⟩]).map Item.url :=
  C5_confirmed (fun _ => none) (fun _ => some emptyFields) [⟨"A", "s", "https://x", "o"⟩]
    (madamBuildItem ⟨"A", "s", "https://x", "o"⟩ emptyFields) (by decide) rfl

/-! ## C4: sink failures during emission -/

/-- C4 counterexample: in the madam emit loop a failed submission raises
out of the loop, so with two assembled records whose first submission
fails, only the first record is ever handed to the sink, the second is
never submitted, and the loop does not complete (no count is
reported). -/
theorem C4_counterexample :
    (madamEmitLoop (fun it => it.url ≠ "https://a")
        [madamBuildItem ⟨"A", "s", "https://a", "o"⟩ emptyFields,
         madamBuildItem ⟨"B", "s", "https://b", "o"⟩ emptyFields]).1 =
      [madamBuildItem ⟨"A", "s", "https://a", "o"⟩ emptyFields] ∧
    madamBuildItem ⟨"B", "s", "https://b", "o"⟩ emptyFields ∉
      (madamEmitLoop (fun it => it.url ≠ "https://a")
        [madamBuildItem ⟨"A", "s", "https://a", "o"⟩ emptyFields,
         madamBuildItem ⟨"B", "s", "https://b", "o"⟩ emptyFields]).1 ∧
    (madamEmitLoop (fun it => it.url ≠ "https://a")
        [madamBuildItem ⟨"A", "s", "https://a", "o"⟩ emptyFields,
         madamBuildItem ⟨"B", "s", "https://b", "o"⟩ emptyFields]).2 = false := by
  decide

/-- C4 amended: in the angel (and chatpia) emit loop the records handed
to the sink are exactly the assembled records with an `http`-prefixed
URL, independently of which submissions fail, and the reported count is
exactly the number of successful submissions; in the madam (and jewel)
emit loop the first failed submission raises, so all records before it
and the failing one are handed to the sink, none after it is, and the
count line never runs. -/
theorem C4_amended (ok : Item → Bool) (items pre post : List Item) (it : Item)
    (hpre : ∀ j ∈ pre, ok j = true) (hit : ok it = false) :
    (angelEmitLoop ok items).1 = items.filter (fun i => i.url.startsWith "http") ∧
    (angelEmitLoop ok items).2 =
      ((items.filter (fun i => i.url.startsWith "http")).filter (fun i => ok i)).length ∧
    madamEmitLoop ok (pre ++ it :: post) = (pre ++ [it], false) := by
  refine ⟨?_, ?_, ?_⟩
  · induction items with
    | nil => rfl
    | cons a rest ih =>
      simp only [angelEmitLoop, List.filter_cons]
      by_cases ha : a.url.startsWith "http"
      · simp [ha, ih]
      · simp [ha, ih]
  · induction items with
    | nil => rfl
    | cons a rest ih =>
      simp only [angelEmitLoop, List.filter_cons]
      by_cases ha : a.url.startsWith "http"
      · simp only [ha, if_true, Bool.not_true, if_false]
        by_cases hok : ok a
        · simp [hok, ih, List.filter_cons]
          omega
        · simp [hok, ih, List.filter_cons]
      · simp [ha, ih]
  · induction pre with
    | nil => simp [madamEmitLoop, hit]
    | cons a rest ih =>
      have ha := hpre a (List.mem_cons_self a rest)
      have hrest : ∀ j ∈ rest, ok j = true := fun j hj => hpre j (List.mem_cons_of_mem a hj)
      simp only [List.cons_append, madamEmitLoop, ha, if_true, List.append_eq]
      rw [ih hrest]

/-- Witness for C4 amended: one successful record before a failing one;
angel submits both records and counts one success, madam stops at the
failing record. -/
theorem C4_witness :
    (angelEmitLoop (fun it => it.url ≠ "https://a")
        [madamBuildItem ⟨"B", "s", "https://b", "o"⟩ emptyFields,
         madamBuildItem ⟨"A", "s", "https://a", "o"⟩ emptyFields]).1 =
      [madamBuildItem ⟨"B", "s", "https://b", "o"⟩ emptyFields,
       madamBuildItem ⟨"A", "s", "https://a", "o"⟩ emptyFields].filter
        (fun i => i.url.startsWith "http") ∧
    (angelEmitLoop (fun it => it.url ≠ "https://a")
        [madamBuildItem ⟨"B", "s", "https://b", "o"⟩ emptyFields,
         madamBuildItem ⟨"A", "s", "https://a", "o"⟩ emptyFields]).2 =
      (([madamBuildItem ⟨"B", "s", "https://b", "o"⟩ emptyFields,
         madamBuildItem ⟨"A", "s", "https://a", "o"⟩ emptyFields].filter
          (fun i => i.url.startsWith "http")).filter
        (fun i => (fun it => it.url ≠ "https://a") i)).length ∧
    madamEmitLoop (fun it => it.url ≠ "https://a")
        ([madamBuildItem ⟨"B", "s", "https://b", "o"⟩ emptyFields] ++
          madamBuildItem ⟨"A", "s", "https://a", "o"⟩ emptyFields ::
            [madamBuildItem ⟨"C", "s", "https://c", "o"⟩ emptyFields]) =
      ([madamBuildItem ⟨"B", "s", "https://b", "o"⟩ emptyFields] ++
        [madamBuildItem ⟨"A", "s", "https://a", "o"⟩ emptyFields], false) :=
  C4_amended (fun it => it.url ≠ "https://a")
    [madamBuildItem ⟨"B", "s", "https://b", "o"⟩ emptyFields,
     madamBuildItem ⟨"A", "s", "https://a", "o"⟩ emptyFields]
    [madamBuildItem ⟨"B", "s", "https://b", "o"⟩ emptyFields]
    [madamBuildItem ⟨"C", "s", "https://c", "o"⟩ emptyFields]
    (madamBuildItem ⟨"A", "s", "https://a", "o"⟩ emptyFields)
    (by decide) (by decide)

/-! ## C3: assembly priority order -/

/-- Walking the selector list and taking the first element whose text is
non-empty is the same as `first_non_empty` over the selector texts in
list order. -/
theorem pick_eq_first_non_empty (soup : DetailSoup) (sels : List String) :
    pick_from_selectors soup sels =
      first_non_empty (sels.map (fun sel =>
        match soup.selText sel with
        | some t => t
        | none => "")) := by
  induction sels with
  | nil => rfl
  | cons sel rest ih =>
    simp only [pick_from_selectors, List.map_cons, first_non_empty]
    cases soup.selText sel with
    | none => simp [ih]
    | some t =>
      by_cases ht : t = ""
      · simp [ht, ih]
      · simp [ht]

/-- C3 counterexample: on a page whose profile container is present but
holds no `job` row, while the generic label-sibling scan for `職業` finds
`会社員`, the code leaves `job` empty — the generic fallback is only ever
consulted for the four high-value fields — whereas the claimed assembly
(first non-empty among the three passes for every field) would return
`会社員`. -/
theorem C3_counterexample :
    (parse_detail_page ⟨some ⟨[], [], []⟩, fun _ => none,
        fun kws => if kws = ["職業"] then "会社員" else ""⟩).job = "" ∧
    specFieldValue ⟨some ⟨[], [], []⟩, fun _ => none,
        fun kws => if kws = ["職業"] then "会社員" else ""⟩ FieldKey.job = "会社員" ∧
    (parse_detail_page ⟨some ⟨[], [], []⟩, fun _ => none,
        fun kws => if kws = ["職業"] then "会社員" else ""⟩).job ≠
      specFieldValue ⟨some ⟨[], [], []⟩, fun _ => none,
        fun kws => if kws = ["職業"] then "会社員" else ""⟩ FieldKey.job := by
  decide

/-- C3 amended: for the four high-value fields (age, height, cup,
face_public) the assembled value is exactly the first non-empty result
among the Structured-Container pass, the Selector Fallback and the
Generic Label-Sibling Fallback in that fixed order, and within the
Selector Fallback the first selector in the field's ordered candidate
list yielding non-empty text wins; every other field receives the
Structured-Container result alone, with no fallback of either kind. -/
theorem C3_amended (soup : DetailSoup) (sels : List String) :
    (parse_detail_page soup).get FieldKey.age = specFieldValue soup FieldKey.age ∧
    (parse_detail_page soup).get FieldKey.height = specFieldValue soup FieldKey.height ∧
    (parse_detail_page soup).get FieldKey.cup = specFieldValue soup FieldKey.cup ∧
    (parse_detail_page soup).get FieldKey.face_public = specFieldValue soup FieldKey.face_public ∧
    (parse_detail_page soup).toy = (madamStructuredFields soup).toy ∧
    (parse_detail_page soup).time_slot = (madamStructuredFields soup).time_slot ∧
    (parse_detail_page soup).style = (madamStructuredFields soup).style ∧
    (parse_detail_page soup).job = (madamStructuredFields soup).job ∧
    (parse_detail_page soup).hobby = (madamStructuredFields soup).hobby ∧
    (parse_detail_page soup).favorite_type = (madamStructuredFields soup).favorite_type ∧
    (parse_detail_page soup).erogenous_zone = (madamStructuredFields soup).erogenous_zone ∧
    (parse_detail_page soup).genre_detail = (madamStructuredFields soup).genre_detail ∧
    pick_from_selectors soup sels =
      first_non_empty (sels.map (fun sel =>
        match soup.selText sel with
        | some t => t
        | none => "")) := by
  refine ⟨?_, ?_, ?_, ?_, rfl, rfl, rfl, rfl, rfl, rfl, rfl, rfl,
    pick_eq_first_non_empty soup sels⟩ <;>
    simp [parse_detail_page, specFieldValue, specSelectorValue, Fields.set, Fields.get,
      pick_eq_first_non_empty]

/-! ## Character-class facts -/

theorem isPyDigit_not_space (c : Char) (h : isPyDigit c = true) : isPySpace c = false := by
  unfold isPySpace
  have h1 : c ≠ ' ' := by rintro rfl; exact absurd h (by decide)
  have h2 : c ≠ '\t' := by rintro rfl; exact absurd h (by decide)
  have h3 : c ≠ '\n' := by rintro rfl; exact absurd h (by decide)
  have h4 : c ≠ '\r' := by rintro rfl; exact absurd h (by decide)
  have h5 : c ≠ '　' := by rintro rfl; exact absurd h (by decide)
  simp [h1, h2, h3, h4, h5]

theorem isCloseParen_not_digit (c : Char) (h : isCloseParen c = true) : isPyDigit c = false := by
  unfold isCloseParen at h
  simp only [Bool.or_eq_true, decide_eq_true_eq] at h
  rcases h with h1 | h2
  · rw [h1]; decide
  · rw [h2]; decide

theorem isPermitted_not_openParen (c : Char) (h : isPermittedNameChar c = true) :
    isOpenParen c = false := by
  unfold isOpenParen
  have h1 : c ≠ '(' := by rintro rfl; exact absurd h (by decide)
  have h2 : c ≠ '（' := by rintro rfl; exact absurd h (by decide)
  simp [h1, h2]

theorem mem_dropWhile_of_not (p : Char → Bool) (l : List Char) (x : Char)
    (hx : x ∈ l) (hp : p x = false) : x ∈ l.dropWhile p := by
  have hsplit := List.takeWhile_append_dropWhile p l
  rw [← hsplit] at hx
  rcases List.mem_append.mp hx with htk | hdr
  · have := List.mem_takeWhile_imp htk
    rw [hp] at this
    exact absurd this (by simp)
  · exact hdr

theorem toList_eq_nil_iff (s : String) : s.toList = [] ↔ s = "" := by
  obtain ⟨d⟩ := s
  constructor
  · intro h
    exact congrArg String.mk h
  · intro h
    rw [h]
    exact rfl

/-! ## Paren-age scan lemmas -/

/-- The scan matches right at the opening parenthesis when the tail has
the `\s*\d+[^）)]*[）)]` shape. -/
theorem ageParenTail_of_shape (ds tail : List Char) (cl : Char)
    (hne : ds ≠ []) (hall : ds.all isPyDigit = true)
    (_htail : tail.all (fun c => !isCloseParen c) = true)
    (hcl : isCloseParen cl = true) :
    ageParenTailMatches (ds ++ (tail ++ [cl])) = true := by
  cases ds with
  | nil => exact absurd rfl hne
  | cons d ds2 =>
    have hd : isPyDigit d = true := List.all_eq_true.mp hall d (List.mem_cons_self d ds2)
    have hdns : isPySpace d = false := isPyDigit_not_space d hd
    rw [List.cons_append]
    have hgoal : ageParenTailMatches (d :: (ds2 ++ (tail ++ [cl]))) =
        ((!(((d :: (ds2 ++ (tail ++ [cl]))).dropWhile isPySpace).takeWhile isPyDigit).isEmpty) &&
         (!((((d :: (ds2 ++ (tail ++ [cl]))).dropWhile isPySpace).dropWhile
              isPyDigit).dropWhile (fun c => !isCloseParen c)).isEmpty)) := rfl
    rw [hgoal, List.dropWhile_cons_of_neg (by simp [hdns])]
    rw [List.takeWhile_cons_of_pos hd]
    simp only [List.isEmpty_cons, Bool.not_false, Bool.true_and]
    have hcl2 : cl ∈ ((d :: (ds2 ++ (tail ++ [cl]))).dropWhile isPyDigit) := by
      apply mem_dropWhile_of_not
      · simp
      · exact isCloseParen_not_digit cl hcl
    have hcl3 : cl ∈ (((d :: (ds2 ++ (tail ++ [cl]))).dropWhile isPyDigit).dropWhile
        (fun c => !isCloseParen c)) := by
      apply mem_dropWhile_of_not _ _ _ hcl2
      simp [hcl]
    cases hres : (((d :: (ds2 ++ (tail ++ [cl]))).dropWhile isPyDigit).dropWhile
        (fun c => !isCloseParen c)) with
    | nil => rw [hres] at hcl3; simp at hcl3
    | cons a as => simp

/-- When the pattern matches nowhere the scan returns `none`. -/
theorem parenAgeSplitAux_none (l acc : List Char)
    (h : l.all (fun c => !isOpenParen c) = true) :
    parenAgeSplitAux acc l = none := by
  induction l generalizing acc with
  | nil => rfl
  | cons c rest ih =>
    have hc : isOpenParen c = false := by
      have := List.all_eq_true.mp h c (List.mem_cons_self c rest)
      simpa using this
    have hrest : rest.all (fun c => !isOpenParen c) = true := by
      rw [List.all_eq_true]
      intro x hx
      exact List.all_eq_true.mp h x (List.mem_cons_of_mem c hx)
    simp only [parenAgeSplitAux, hc, Bool.false_and, Bool.false_eq_true, if_false]
    exact ih (c :: acc) hrest

/-- The scan stops at the first opening parenthesis whose tail matches,
returning the accumulated prefix. -/
theorem parenAgeSplitAux_append (base : List Char) (op : Char) (rest : List Char)
    (acc : List Char)
    (hb : base.all (fun c => !isOpenParen c) = true)
    (hop : isOpenParen op = true) (hmatch : ageParenTailMatches rest = true) :
    parenAgeSplitAux acc (base ++ op :: rest) = some (acc.reverse ++ base) := by
  induction base generalizing acc with
  | nil =>
    simp only [List.nil_append, parenAgeSplitAux, hop, hmatch, Bool.and_self, if_true]
    simp
  | cons c cs ih =>
    have hc : isOpenParen c = false := by
      have := List.all_eq_true.mp hb c (List.mem_cons_self c cs)
      simpa using this
    have hcs : cs.all (fun c => !isOpenParen c) = true := by
      rw [List.all_eq_true]
      intro x hx
      exact List.all_eq_true.mp hb x (List.mem_cons_of_mem c hx)
    simp only [List.cons_append, parenAgeSplitAux, hc, Bool.false_and, Bool.false_eq_true,
      if_false]
    rw [show cs.append (op :: rest) = cs ++ op :: rest from rfl, ih (c :: acc) hcs]
    simp

/-! ## C8: parenthesized age removal from names -/

/-- C8 counterexample: the chatpia pipeline removes only half-width
parenthesized groups, so the full-width annotation in
`"Kiyomi（53歳）"` is not removed — only the parenthesis characters are
later dropped by sanitization — and the result is `"Kiyomi53歳"`, not
`"Kiyomi"`. -/
theorem C8_counterexample :
    chatpiaCardName "Kiyomi（53歳）" = "Kiyomi53歳" ∧
    chatpiaCardName "Kiyomi（53歳）" ≠ "Kiyomi" := by
  decide

/-- C8 amended: the angel name pipeline removes the first parenthesized
age annotation — a digit run inside half-width or full-width parentheses
— before sanitization, and trims: for any prefix with no opening
parenthesis, non-empty digit run and closer-free infix, the result is the
sanitized, stripped prefix; `"Kiyomi (53歳)"` sanitizes to `"Kiyomi"` in
both pipelines, and angel also handles the full-width variant, while
chatpia removes only half-width groups. -/
theorem C8_amended (base ds tail : String) (op cl : Char)
    (hb : base.toList.all (fun c => !isOpenParen c) = true)
    (hne : ds ≠ "") (hall : ds.toList.all isPyDigit = true)
    (htail : tail.toList.all (fun c => !isCloseParen c) = true)
    (hop : isOpenParen op = true) (hcl : isCloseParen cl = true) :
    angelCardName (base ++ String.mk [op] ++ ds ++ tail ++ String.mk [cl]) =
      sanitize_profile_name (pyStrip base) ∧
    angelCardName "Kiyomi (53歳)" = "Kiyomi" ∧
    angelCardName "Kiyomi（53歳）" = "Kiyomi" ∧
    chatpiaCardName "Kiyomi (53歳)" = "Kiyomi" := by
  refine ⟨?_, by decide, by decide, by decide⟩
  have hdsne : ds.toList ≠ [] := fun h => hne ((toList_eq_nil_iff ds).mp h)
  have hsplit : (base ++ String.mk [op] ++ ds ++ tail ++ String.mk [cl]).toList =
      base.toList ++ op :: (ds.toList ++ (tail.toList ++ [cl])) := by
    show (base ++ String.mk [op] ++ ds ++ tail ++ String.mk [cl]).data =
      base.data ++ op :: (ds.data ++ (tail.data ++ [cl]))
    simp [String.data_append]
  unfold angelCardName parenAgeSplit
  rw [hsplit, parenAgeSplitAux_append base.toList op (ds.toList ++ (tail.toList ++ [cl])) []
    hb hop (ageParenTail_of_shape ds.toList tail.toList cl hdsne hall htail hcl)]
  simp only [List.reverse_nil, List.nil_append]
  rfl

/-- Witness for C8 amended at the spec's own example decomposed as
prefix `"Kiyomi "`, digits `"53"`, infix `"歳"`. -/
theorem C8_witness :
    angelCardName ("Kiyomi " ++ String.mk ['('] ++ "53" ++ "歳" ++ String.mk [')']) =
      sanitize_profile_name (pyStrip "Kiyomi ") ∧
    angelCardName "Kiyomi (53歳)" = "Kiyomi" ∧
    angelCardName "Kiyomi（53歳）" = "Kiyomi" ∧
    chatpiaCardName "Kiyomi (53歳)" = "Kiyomi" :=
  C8_amended "Kiyomi " "53" "歳" '(' ')' (by decide) (by decide) (by decide) (by decide)
    (by decide) (by decide)

/-! ## Strip idempotence -/

theorem trimLeft_trimLeft (l : List Char) : trimLeft (trimLeft l) = trimLeft l := by
  unfold trimLeft
  cases h : l.dropWhile isPySpace with
  | nil => rfl
  | cons c t =>
    have hx := List.head?_dropWhile_not isPySpace l
    rw [h] at hx
    simp at hx
    exact List.dropWhile_cons_of_neg (by simp [hx])

theorem trimRight_trimRight (l : List Char) : trimRight (trimRight l) = trimRight l := by
  unfold trimRight
  rw [List.reverse_reverse]
  rw [show (l.reverse.dropWhile isPySpace).dropWhile isPySpace = l.reverse.dropWhile isPySpace
    from trimLeft_trimLeft l.reverse]

theorem trimRight_prefix (l : List Char) :
    trimRight l ++ (l.reverse.takeWhile isPySpace).reverse = l := by
  unfold trimRight
  rw [← List.reverse_append, List.takeWhile_append_dropWhile, List.reverse_reverse]

theorem trimLeft_of_head (l : List Char)
    (h : ∀ c t, l = c :: t → isPySpace c = false) : trimLeft l = l := by
  cases l with
  | nil => rfl
  | cons c t => exact List.dropWhile_cons_of_neg (by simp [h c t rfl])

theorem trimLeft_pyStripList (l : List Char) :
    trimLeft (pyStripList l) = pyStripList l := by
  unfold pyStripList
  apply trimLeft_of_head
  intro c t hct
  have hpre := trimRight_prefix (trimLeft l)
  rw [hct] at hpre
  have htll : l.dropWhile isPySpace =
      c :: (t ++ ((trimLeft l).reverse.takeWhile isPySpace).reverse) := by
    show trimLeft l = _
    calc trimLeft l = (c :: t) ++ ((trimLeft l).reverse.takeWhile isPySpace).reverse :=
          hpre.symm
      _ = c :: (t ++ ((trimLeft l).reverse.takeWhile isPySpace).reverse) := by
          rw [List.cons_append]
  have hx := List.head?_dropWhile_not isPySpace l
  rw [htll] at hx
  simpa using hx

theorem pyStripList_idem (l : List Char) :
    pyStripList (pyStripList l) = pyStripList l := by
  unfold pyStripList
  rw [show trimLeft (trimRight (trimLeft l)) = trimRight (trimLeft l) from trimLeft_pyStripList l]
  exact trimRight_trimRight (trimLeft l)

theorem pyStripList_sublist (l : List Char) : (pyStripList l).Sublist l := by
  unfold pyStripList trimRight
  have h1 : List.Sublist ((trimLeft l).reverse.dropWhile isPySpace) (trimLeft l).reverse :=
    List.dropWhile_sublist _
  have h2 : List.Sublist ((trimLeft l).reverse.dropWhile isPySpace).reverse (trimLeft l) := by
    have h3 := h1.reverse
    rwa [List.reverse_reverse] at h3
  exact h2.trans (List.dropWhile_sublist _)

theorem pyStripList_of_no_space (l : List Char)
    (h : l.all (fun c => !isPySpace c) = true) : pyStripList l = l := by
  unfold pyStripList
  have h1 : trimLeft l = l := by
    apply trimLeft_of_head
    intro c t hct
    have hc := List.all_eq_true.mp h c (by rw [hct]; exact List.mem_cons_self c t)
    simpa using hc
  rw [h1]
  unfold trimRight
  have h2 : l.reverse.dropWhile isPySpace = l.reverse := by
    apply trimLeft_of_head
    intro c t hct
    have hcmem : c ∈ l := by
      rw [← List.mem_reverse, hct]
      exact List.mem_cons_self c t
    have hc := List.all_eq_true.mp h c hcmem
    simpa using hc
  rw [h2, List.reverse_reverse]

/-! ## Normalization-step idempotence -/

theorem fillString_idem (v : String) : fillString (fillString v) = fillString v := by
  by_cases h : pyStrip v = ""
  · rw [show fillString v = "-" from by unfold fillString; rw [if_pos h]]
    decide
  · have hv : fillString v = v := by unfold fillString; rw [if_neg h]
    rw [hv, hv]

theorem fillOrDash_idem (v : String) :
    fillString (orDash (fillString (orDash v))) = fillString (orDash v) := by
  by_cases h : v = ""
  · subst h; decide
  · rw [show orDash v = v from if_neg h]
    by_cases h2 : pyStrip v = ""
    · rw [show fillString v = "-" from by unfold fillString; rw [if_pos h2]]
      decide
    · have hv : fillString v = v := by unfold fillString; rw [if_neg h2]
      rw [hv, show orDash v = v from if_neg h, hv]

theorem genreStep_idem (v : String) :
    fillString (if fillString (if v = "" then "Angel Live" else v) = "" then "Angel Live"
      else fillString (if v = "" then "Angel Live" else v)) =
      fillString (if v = "" then "Angel Live" else v) := by
  rw [if_neg (fillString_spec (if v = "" then "Angel Live" else v)).1]
  exact fillString_idem _

theorem extract_age_digits_all (s : String) :
    (extract_age_digits s).toList.all isPyDigit = true := by
  unfold extract_age_digits
  by_cases h : s = ""
  · rw [if_pos h]; rfl
  · rw [if_neg h, mk_toList, List.all_eq_true]
    intro c hc
    have hd := List.mem_takeWhile_imp hc
    exact hd

theorem extract_age_digits_fix (s : String) (hne : s ≠ "")
    (hall : s.toList.all isPyDigit = true) : extract_age_digits s = s := by
  unfold extract_age_digits
  rw [if_neg hne]
  have h1 : s.toList.dropWhile (fun c => !isPyDigit c) = s.toList := by
    cases hl : s.toList with
    | nil => rfl
    | cons c t =>
      have hc : isPyDigit c = true :=
        List.all_eq_true.mp hall c (by rw [hl]; exact List.mem_cons_self c t)
      exact List.dropWhile_cons_of_neg (by simp [hc])
  rw [h1, List.takeWhile_eq_self_iff.mpr (fun x hx => List.all_eq_true.mp hall x hx)]
  exact rfl

theorem ageStep_idem (v : String) :
    fillString (orDash (extract_age_digits (fillString (orDash (extract_age_digits v))))) =
      fillString (orDash (extract_age_digits v)) := by
  by_cases h : extract_age_digits v = ""
  · rw [h]; decide
  · have hall := extract_age_digits_all v
    have hd1 : orDash (extract_age_digits v) = extract_age_digits v := if_neg h
    rw [hd1]
    have hnospace : (extract_age_digits v).toList.all (fun c => !isPySpace c) = true := by
      rw [List.all_eq_true] at hall ⊢
      intro c hc
      simpa using isPyDigit_not_space c (hall c hc)
    have hstrip : pyStrip (extract_age_digits v) = extract_age_digits v := by
      unfold pyStrip
      rw [pyStripList_of_no_space _ hnospace]
      exact rfl
    have hfill : fillString (extract_age_digits v) = extract_age_digits v := by
      unfold fillString
      rw [if_neg (by rw [hstrip]; exact h)]
    rw [hfill, extract_age_digits_fix _ h hall, hd1, hfill]

/-! ## Name-pipeline fixpoint -/

/-- Sanitizing an already-fixed string: permitted characters only and
already stripped. -/
theorem sanitize_of_fixed (w : String) (hw : w ≠ "")
    (hperm : w.toList.all isPermittedNameChar = true)
    (hstripfix : pyStripList w.toList = w.toList) : sanitize_profile_name w = w := by
  unfold sanitize_profile_name
  rw [if_neg hw, List.filter_eq_self.mpr (fun a ha => List.all_eq_true.mp hperm a ha),
    hstripfix]
  exact rfl

theorem sanitize_output_facts (b : String) (h : sanitize_profile_name b ≠ "") :
    (sanitize_profile_name b).toList.all isPermittedNameChar = true ∧
    pyStripList (sanitize_profile_name b).toList = (sanitize_profile_name b).toList := by
  by_cases hb : b = ""
  · exfalso
    apply h
    unfold sanitize_profile_name
    rw [if_pos hb]
  · have hval : sanitize_profile_name b =
        String.mk (pyStripList (b.toList.filter isPermittedNameChar)) := by
      unfold sanitize_profile_name
      rw [if_neg hb]
    rw [hval, mk_toList]
    constructor
    · rw [List.all_eq_true]
      intro c hc
      have hc2 : c ∈ b.toList.filter isPermittedNameChar :=
        (pyStripList_sublist _).subset hc
      exact List.of_mem_filter hc2
    · exact pyStripList_idem _

theorem angelCardName_eq_sanitize (v : String) :
    angelCardName v = sanitize_profile_name
      (match parenAgeSplit v with
       | some pre => String.mk (pyStripList pre)
       | none => v) := rfl

theorem angelCardName_strip (v : String) (h : angelCardName v ≠ "") :
    pyStrip (angelCardName v) = angelCardName v := by
  rw [angelCardName_eq_sanitize] at h ⊢
  have hf := (sanitize_output_facts _ h).2
  unfold pyStrip
  rw [hf]
  exact rfl

theorem angelCardName_fix (v : String) (h : angelCardName v ≠ "") :
    angelCardName (angelCardName v) = angelCardName v := by
  have hperm : (angelCardName v).toList.all isPermittedNameChar = true := by
    rw [angelCardName_eq_sanitize] at h ⊢
    exact (sanitize_output_facts _ h).1
  have hstripfix : pyStripList (angelCardName v).toList = (angelCardName v).toList := by
    rw [angelCardName_eq_sanitize] at h ⊢
    exact (sanitize_output_facts _ h).2
  have hnoparen : (angelCardName v).toList.all (fun c => !isOpenParen c) = true := by
    rw [List.all_eq_true] at hperm ⊢
    intro c hc
    simpa using isPermitted_not_openParen c (hperm c hc)
  have hsplit : parenAgeSplit (angelCardName v) = none :=
    parenAgeSplitAux_none _ [] hnoparen
  rw [angelCardName_eq_sanitize (angelCardName v), hsplit]
  exact sanitize_of_fixed _ h hperm hstripfix

theorem nameStep_idem (v : String) :
    fillString (orDash (angelCardName (fillString (orDash (angelCardName v))))) =
      fillString (orDash (angelCardName v)) := by
  by_cases h : angelCardName v = ""
  · rw [h]; decide
  · have h1 : orDash (angelCardName v) = angelCardName v := if_neg h
    rw [h1]
    have hfill : fillString (angelCardName v) = angelCardName v := by
      unfold fillString
      rw [if_neg (by rw [angelCardName_strip v h]; exact h)]
    rw [hfill, angelCardName_fix v h, h1, hfill]

/-! ## C9: assembler normalization is idempotent -/

theorem itemExt (a b : Item)
    (h1 : a.name = b.name) (h2 : a.samune = b.samune) (h3 : a.url = b.url)
    (h4 : a.oneword = b.oneword) (h5 : a.age = b.age) (h6 : a.height = b.height)
    (h7 : a.cup = b.cup) (h8 : a.face_public = b.face_public) (h9 : a.toy = b.toy)
    (h10 : a.time_slot = b.time_slot) (h11 : a.style = b.style) (h12 : a.job = b.job)
    (h13 : a.hobby = b.hobby) (h14 : a.favorite_type = b.favorite_type)
    (h15 : a.erogenous_zone = b.erogenous_zone) (h16 : a.genre = b.genre) : a = b := by
  cases a
  cases b
  simp_all

/-! Projection equations of `angelNormalizeItem`, used to rewrite the
idempotence goal field by field. -/

theorem annName (it : Item) :
    (angelNormalizeItem it).name = fillString (orDash (angelCardName it.name)) := rfl

theorem annSamune (it : Item) :
    (angelNormalizeItem it).samune = fillString it.samune := rfl

theorem annUrl (it : Item) :
    (angelNormalizeItem it).url = fillString it.url := rfl

theorem annOneword (it : Item) :
    (angelNormalizeItem it).oneword = fillString it.oneword := rfl

theorem annAge (it : Item) :
    (angelNormalizeItem it).age = fillString (orDash (extract_age_digits it.age)) := rfl

theorem annHeight (it : Item) :
    (angelNormalizeItem it).height = fillString (orDash it.height) := rfl

theorem annCup (it : Item) :
    (angelNormalizeItem it).cup = fillString (orDash it.cup) := rfl

theorem annFacePublic (it : Item) :
    (angelNormalizeItem it).face_public = fillString (orDash it.face_public) := rfl

theorem annToy (it : Item) :
    (angelNormalizeItem it).toy = fillString (orDash it.toy) := rfl

theorem annTimeSlot (it : Item) :
    (angelNormalizeItem it).time_slot = fillString (orDash it.time_slot) := rfl

theorem annStyle (it : Item) :
    (angelNormalizeItem it).style = fillString (orDash it.style) := rfl

theorem annJob (it : Item) :
    (angelNormalizeItem it).job = fillString (orDash it.job) := rfl

theorem annHobby (it : Item) :
    (angelNormalizeItem it).hobby = fillString (orDash it.hobby) := rfl

theorem annFavoriteType (it : Item) :
    (angelNormalizeItem it).favorite_type = fillString (orDash it.favorite_type) := rfl

theorem annErogenousZone (it : Item) :
    (angelNormalizeItem it).erogenous_zone = fillString (orDash it.erogenous_zone) := rfl

theorem annGenre (it : Item) :
    (angelNormalizeItem it).genre =
      fillString (if it.genre = "" then "Angel Live" else it.genre) := rfl

/-- C9: the angel/chatpia record-assembler normalization (age digit
extraction, name sanitization with its internal trims, the per-field
dash defaults, the genre source default and the whole-record dash fill)
is idempotent: applying it to an already-normalized field mapping gives
the same mapping. -/
theorem C9_confirmed (it : Item) :
    angelNormalizeItem (angelNormalizeItem it) = angelNormalizeItem it := by
  apply itemExt <;>
    simp only [annName, annSamune, annUrl, annOneword, annAge, annHeight, annCup,
      annFacePublic, annToy, annTimeSlot, annStyle, annJob, annHobby, annFavoriteType,
      annErogenousZone, annGenre]
  · exact nameStep_idem it.name
  · exact fillString_idem it.samune
  · exact fillString_idem it.url
  · exact fillString_idem it.oneword
  · exact ageStep_idem it.age
  · exact fillOrDash_idem it.height
  · exact fillOrDash_idem it.cup
  · exact fillOrDash_idem it.face_public
  · exact fillOrDash_idem it.toy
  · exact fillOrDash_idem it.time_slot
  · exact fillOrDash_idem it.style
  · exact fillOrDash_idem it.job
  · exact fillOrDash_idem it.hobby
  · exact fillOrDash_idem it.favorite_type
  · exact fillOrDash_idem it.erogenous_zone
  · exact genreStep_idem it.genre

end LiveScraper
